import Mathlib

/-!
Verification development for the x402-agent-pay spending-policy engine.

The definitions below are a shallow embedding of the TypeScript sources
(`src/index.ts` enhanced `PolicyEnforcer`, `src/receipts.ts` `ReceiptStore`).
Modelling conventions:

* JavaScript numbers holding USDC amounts are modelled as `ℚ` (the spec
  requires decimal arithmetic without rounding; float formatting such as
  `toFixed(2)` only affects message text).
* Deny-reason strings are modelled by the inductive `DenyReason`, one
  constructor per template string in the source, carrying exactly the data
  interpolated into that string.
* Ambient time is made explicit: `Date.now()` becomes a parameter
  `nowMs : ℤ`, and the calendar keys computed by `getDateKeys()` become a
  parameter `keys : DateKeys` (current UTC day, Monday-of-week, first-of-month
  date strings).
* The JS `Record<string, number>` is modelled as an association list with
  first-match lookup and in-place update, matching object-key semantics.
* File persistence (`saveState`/`loadState`) is modelled by an explicit
  `persisted` component on the `Enforcer` structure; `saveState` sets it to
  the current in-memory state.
-/

namespace X402

/-- Calendar keys computed by `getDateKeys()`: current UTC date, Monday of the
current week, first of the current month, as `YYYY-MM-DD` strings. -/
structure DateKeys where
  date : String
  weekStart : String
  monthStart : String
deriving DecidableEq, Repr

/-- `SpendingRecord` from `src/index.ts`: one velocity-window entry. -/
structure SpendingRecord where
  timestamp : ℤ
  amount : ℚ
  recipient : String
deriving DecidableEq, Repr

/-- `SpendingState` from `src/index.ts`. -/
structure SpendingState where
  date : String
  weekStart : String
  monthStart : String
  dailySpent : ℚ
  weeklySpent : ℚ
  monthlySpent : ℚ
  transactions : ℕ
  recentTransactions : List SpendingRecord
  perRecipient : List (String × ℚ)
deriving DecidableEq, Repr

/-- `PaymentPolicy` from `src/config.ts`. -/
structure PaymentPolicy where
  maxPerTransaction : ℚ
  dailyLimit : ℚ
  weeklyLimit : Option ℚ
  monthlyLimit : Option ℚ
  maxTransactionsPerHour : Option ℕ
  perRecipientDailyLimit : Option ℚ
  approvedRecipients : Option (List String)
  blockedRecipients : Option (List String)
  requireDryRun : Option Bool
  autoApproveUnder : Option ℚ
  simulateBeforePay : Option Bool
deriving DecidableEq, Repr

/-- `DEFAULT_POLICY` from `src/config.ts`. -/
def DEFAULT_POLICY : PaymentPolicy where
  maxPerTransaction := 1
  dailyLimit := 10
  weeklyLimit := none
  monthlyLimit := none
  maxTransactionsPerHour := some 60
  perRecipientDailyLimit := none
  approvedRecipients := none
  blockedRecipients := none
  requireDryRun := some false
  autoApproveUnder := some (1/10)
  simulateBeforePay := none

/-- The deny reason strings produced by `checkPayment`, one constructor per
template string, carrying the data interpolated into the message. -/
inductive DenyReason where
  | perTransactionLimit (amount limit : ℚ)
  | dailyLimitExceeded (current limit : ℚ)
  | weeklyLimitExceeded (current limit : ℚ)
  | monthlyLimitExceeded (current limit : ℚ)
  | velocityLimitExceeded (count limit : ℕ)
  | perRecipientLimitExceeded (recipient : String) (current limit : ℚ)
  | blockedRecipient (recipient : String)
  | notWhitelisted (recipient : String)
deriving DecidableEq, Repr

/-- Return type of `checkPayment`: `{ allowed: boolean; reason?: string }`. -/
structure CheckResult where
  allowed : Bool
  reason : Option DenyReason
deriving DecidableEq, Repr

/-- One hour in milliseconds (`60 * 60 * 1000`). -/
def hourMs : ℤ := 3600000

/-- `recentTransactions.filter(t => t.timestamp > oneHourAgo).length` where
`oneHourAgo = Date.now() - 60*60*1000`. -/
def recentCount (recent : List SpendingRecord) (nowMs : ℤ) : ℕ :=
  (recent.filter (fun t => nowMs - hourMs < t.timestamp)).length

/-- Lookup in the `perRecipient` record with default `0`
(`this.state.perRecipient[normalizedRecipient] || 0`). -/
def getEntry (m : List (String × ℚ)) (k : String) : ℚ :=
  ((m.find? (fun kv => kv.1 == k)).map (fun kv => kv.2)).getD 0

/-- JS object-key assignment `m[k] = v`: replace the existing binding or
append a new one. -/
def setEntry : List (String × ℚ) → String → ℚ → List (String × ℚ)
  | [], k, v => [(k, v)]
  | (k', v') :: rest, k, v =>
    if k' == k then (k, v) :: rest else (k', v') :: setEntry rest k v

/- `checkPayment` is an early-return cascade in the source; each step below is
one contiguous block of the method body, in source order. -/

/-- Whitelist block of `checkPayment` (the final block, falling through to
`{ allowed: true }`). -/
def checkWhitelistStep (policy : PaymentPolicy) (recipient normalized : String) :
    CheckResult :=
  match policy.approvedRecipients with
  | some l =>
    if l.length > 0 then
      if l.any (fun addr => addr.toLower == normalized) then ⟨true, none⟩
      else ⟨false, some (.notWhitelisted recipient)⟩
    else ⟨true, none⟩
  | none => ⟨true, none⟩

/-- Blacklist block of `checkPayment` (evaluated before the whitelist). -/
def checkBlacklistStep (policy : PaymentPolicy) (recipient normalized : String) :
    CheckResult :=
  match policy.blockedRecipients with
  | some l =>
    if l.length > 0 && l.any (fun addr => addr.toLower == normalized) then
      ⟨false, some (.blockedRecipient recipient)⟩
    else checkWhitelistStep policy recipient normalized
  | none => checkWhitelistStep policy recipient normalized

/-- Per-recipient daily limit block of `checkPayment`. -/
def checkPerRecipientStep (policy : PaymentPolicy) (state : SpendingState)
    (amountUsdc : ℚ) (recipient normalized : String) : CheckResult :=
  match policy.perRecipientDailyLimit with
  | some l =>
    let recipientSpent := getEntry state.perRecipient normalized
    if recipientSpent + amountUsdc > l then
      ⟨false, some (.perRecipientLimitExceeded recipient recipientSpent l)⟩
    else checkBlacklistStep policy recipient normalized
  | none => checkBlacklistStep policy recipient normalized

/-- Velocity limit block of `checkPayment`. -/
def checkVelocityStep (policy : PaymentPolicy) (state : SpendingState)
    (nowMs : ℤ) (amountUsdc : ℚ) (recipient normalized : String) : CheckResult :=
  match policy.maxTransactionsPerHour with
  | some n =>
    if recentCount state.recentTransactions nowMs ≥ n then
      ⟨false, some (.velocityLimitExceeded (recentCount state.recentTransactions nowMs) n)⟩
    else checkPerRecipientStep policy state amountUsdc recipient normalized
  | none => checkPerRecipientStep policy state amountUsdc recipient normalized

/-- Monthly limit block of `checkPayment`. -/
def checkMonthlyStep (policy : PaymentPolicy) (state : SpendingState)
    (nowMs : ℤ) (amountUsdc : ℚ) (recipient normalized : String) : CheckResult :=
  match policy.monthlyLimit with
  | some l =>
    if state.monthlySpent + amountUsdc > l then
      ⟨false, some (.monthlyLimitExceeded state.monthlySpent l)⟩
    else checkVelocityStep policy state nowMs amountUsdc recipient normalized
  | none => checkVelocityStep policy state nowMs amountUsdc recipient normalized

/-- Weekly limit block of `checkPayment`. -/
def checkWeeklyStep (policy : PaymentPolicy) (state : SpendingState)
    (nowMs : ℤ) (amountUsdc : ℚ) (recipient normalized : String) : CheckResult :=
  match policy.weeklyLimit with
  | some l =>
    if state.weeklySpent + amountUsdc > l then
      ⟨false, some (.weeklyLimitExceeded state.weeklySpent l)⟩
    else checkMonthlyStep policy state nowMs amountUsdc recipient normalized
  | none => checkMonthlyStep policy state nowMs amountUsdc recipient normalized

/-- `PolicyEnforcer.checkPayment` (`src/index.ts`, enhanced variant,
lines 232–325). Note that the method body never reads `getDateKeys()` and
never writes `this.state`: it evaluates the limits against the stored state
as-is. -/
def checkPayment (policy : PaymentPolicy) (state : SpendingState) (nowMs : ℤ)
    (amountUsdc : ℚ) (recipient : String) : CheckResult :=
  let normalizedRecipient := recipient.toLower
  if amountUsdc > policy.maxPerTransaction then
    ⟨false, some (.perTransactionLimit amountUsdc policy.maxPerTransaction)⟩
  else if state.dailySpent + amountUsdc > policy.dailyLimit then
    ⟨false, some (.dailyLimitExceeded state.dailySpent policy.dailyLimit)⟩
  else
    checkWeeklyStep policy state nowMs amountUsdc recipient normalizedRecipient

/-! ### Specification-side description of the check order (for C1)

The spec describes `checkPayment` as a fixed ordered list of checks where the
first failing check's reason is returned. The list below is written from the
spec's enumeration (per-transaction, daily, weekly, monthly, velocity,
per-recipient, blacklist, whitelist); the theorem compares it with the source
translation above. -/

/-- Spec check 1: per-transaction cap. -/
def perTxCheck (policy : PaymentPolicy) (amountUsdc : ℚ) : Option DenyReason :=
  if amountUsdc > policy.maxPerTransaction then
    some (.perTransactionLimit amountUsdc policy.maxPerTransaction)
  else none

/-- Spec check 2: daily limit. -/
def dailyCheck (policy : PaymentPolicy) (state : SpendingState)
    (amountUsdc : ℚ) : Option DenyReason :=
  if state.dailySpent + amountUsdc > policy.dailyLimit then
    some (.dailyLimitExceeded state.dailySpent policy.dailyLimit)
  else none

/-- Spec check 3: weekly limit (when configured). -/
def weeklyCheck (policy : PaymentPolicy) (state : SpendingState)
    (amountUsdc : ℚ) : Option DenyReason :=
  match policy.weeklyLimit with
  | some l =>
    if state.weeklySpent + amountUsdc > l then
      some (.weeklyLimitExceeded state.weeklySpent l)
    else none
  | none => none

/-- Spec check 4: monthly limit (when configured). -/
def monthlyCheck (policy : PaymentPolicy) (state : SpendingState)
    (amountUsdc : ℚ) : Option DenyReason :=
  match policy.monthlyLimit with
  | some l =>
    if state.monthlySpent + amountUsdc > l then
      some (.monthlyLimitExceeded state.monthlySpent l)
    else none
  | none => none

/-- Spec check 5: velocity limit (when configured). -/
def velocityCheck (policy : PaymentPolicy) (state : SpendingState)
    (nowMs : ℤ) : Option DenyReason :=
  match policy.maxTransactionsPerHour with
  | some n =>
    if recentCount state.recentTransactions nowMs ≥ n then
      some (.velocityLimitExceeded (recentCount state.recentTransactions nowMs) n)
    else none
  | none => none

/-- Spec check 6: per-recipient daily limit (when configured). -/
def perRecipientCheck (policy : PaymentPolicy) (state : SpendingState)
    (amountUsdc : ℚ) (recipient normalized : String) : Option DenyReason :=
  match policy.perRecipientDailyLimit with
  | some l =>
    if getEntry state.perRecipient normalized + amountUsdc > l then
      some (.perRecipientLimitExceeded recipient (getEntry state.perRecipient normalized) l)
    else none
  | none => none

/-- Spec check 7: blacklist (case-insensitive). -/
def blacklistCheck (policy : PaymentPolicy) (recipient normalized : String) :
    Option DenyReason :=
  match policy.blockedRecipients with
  | some l =>
    if l.length > 0 && l.any (fun addr => addr.toLower == normalized) then
      some (.blockedRecipient recipient)
    else none
  | none => none

/-- Spec check 8: whitelist (case-insensitive). -/
def whitelistCheck (policy : PaymentPolicy) (recipient normalized : String) :
    Option DenyReason :=
  match policy.approvedRecipients with
  | some l =>
    if l.length > 0 && !(l.any (fun addr => addr.toLower == normalized)) then
      some (.notWhitelisted recipient)
    else none
  | none => none

/-- The eight checks of the spec, in the spec's order; `some r` means the
check fails with reason `r`. -/
def checkList (policy : PaymentPolicy) (state : SpendingState) (nowMs : ℤ)
    (amountUsdc : ℚ) (recipient : String) : List (Option DenyReason) :=
  [ perTxCheck policy amountUsdc,
    dailyCheck policy state amountUsdc,
    weeklyCheck policy state amountUsdc,
    monthlyCheck policy state amountUsdc,
    velocityCheck policy state nowMs,
    perRecipientCheck policy state amountUsdc recipient recipient.toLower,
    blacklistCheck policy recipient recipient.toLower,
    whitelistCheck policy recipient recipient.toLower ]

/-- First failing check of an ordered check list. -/
def firstFailure : List (Option DenyReason) → Option DenyReason
  | [] => none
  | some r :: _ => some r
  | none :: rest => firstFailure rest

/-- Package the first failure as a `CheckResult` the way the spec reads:
deny with the first failing check's reason, otherwise allow. -/
def resultOfFirstFailure (l : List (Option DenyReason)) : CheckResult :=
  match firstFailure l with
  | some r => ⟨false, some r⟩
  | none => ⟨true, none⟩

/-- The recipient is (case-insensitively) in the given recipient list. -/
def inList (l : List String) (recipient : String) : Prop :=
  ∃ addr ∈ l, addr.toLower = recipient.toLower

/-- All six numeric checks (per-transaction, daily, weekly, monthly, velocity,
per-recipient) pass. -/
def numericChecksPass (policy : PaymentPolicy) (state : SpendingState)
    (nowMs : ℤ) (amountUsdc : ℚ) (recipient : String) : Prop :=
  amountUsdc ≤ policy.maxPerTransaction ∧
  state.dailySpent + amountUsdc ≤ policy.dailyLimit ∧
  (∀ l, policy.weeklyLimit = some l → state.weeklySpent + amountUsdc ≤ l) ∧
  (∀ l, policy.monthlyLimit = some l → state.monthlySpent + amountUsdc ≤ l) ∧
  (∀ n, policy.maxTransactionsPerHour = some n →
    recentCount state.recentTransactions nowMs < n) ∧
  (∀ l, policy.perRecipientDailyLimit = some l →
    getEntry state.perRecipient (recipient.toLower) + amountUsdc ≤ l)

/-! ### State mutation: rollover, recordPayment, loadState -/

/-- The fresh `defaultState` built in `loadState`. -/
def defaultState (keys : DateKeys) : SpendingState where
  date := keys.date
  weekStart := keys.weekStart
  monthStart := keys.monthStart
  dailySpent := 0
  weeklySpent := 0
  monthlySpent := 0
  transactions := 0
  recentTransactions := []
  perRecipient := []

/-- The "reset if new period" block shared by `loadState` (lines 189–207) and
`recordPayment` (lines 334–348): each bucket whose stored key differs from the
computed key is zeroed independently; the daily reset also clears the
transaction counter and the per-recipient map. -/
def rolloverBuckets (keys : DateKeys) (s : SpendingState) : SpendingState :=
  let s := if s.date ≠ keys.date then
    { s with date := keys.date, dailySpent := 0, transactions := 0, perRecipient := [] }
    else s
  let s := if s.weekStart ≠ keys.weekStart then
    { s with weekStart := keys.weekStart, weeklySpent := 0 }
    else s
  if s.monthStart ≠ keys.monthStart then
    { s with monthStart := keys.monthStart, monthlySpent := 0 }
  else s

/-- Velocity-window pruning
(`recentTransactions.filter(t => t.timestamp > oneHourAgo)`). -/
def pruneRecent (nowMs : ℤ) (s : SpendingState) : SpendingState :=
  { s with
    recentTransactions := s.recentTransactions.filter (fun t => nowMs - hourMs < t.timestamp) }

/-- `PolicyEnforcer.loadState` (lines 170–222): `file = none` stands for a
missing or unparsable spending file (both yield `defaultState`); `some data`
is the parsed file, which is rolled over and velocity-pruned. -/
def loadState (keys : DateKeys) (nowMs : ℤ) (file : Option SpendingState) :
    SpendingState :=
  match file with
  | none => defaultState keys
  | some data =>
    let data := if data.date ≠ keys.date then
      { data with date := keys.date, dailySpent := 0, transactions := 0, perRecipient := [] }
      else data
    let data := if data.weekStart ≠ keys.weekStart then
      { data with weekStart := keys.weekStart, weeklySpent := 0 }
      else data
    let data := if data.monthStart ≠ keys.monthStart then
      { data with monthStart := keys.monthStart, monthlySpent := 0 }
      else data
    { data with
      recentTransactions := data.recentTransactions.filter (fun t => nowMs - hourMs < t.timestamp) }

/-- The accumulation part of `recordPayment` (lines 350–371): add the amount
to the three bucket totals and the per-recipient map, bump the transaction
counter, append the velocity entry, prune the window. Split out so the
rollover/accumulate decomposition can be stated. -/
def applyPayment (nowMs : ℤ) (amountUsdc : ℚ) (normalizedRecipient : String)
    (s : SpendingState) : SpendingState :=
  let s := { s with dailySpent := s.dailySpent + amountUsdc,
                    weeklySpent := s.weeklySpent + amountUsdc,
                    monthlySpent := s.monthlySpent + amountUsdc,
                    transactions := s.transactions + 1 }
  let s := { s with
    perRecipient := setEntry s.perRecipient normalizedRecipient
      (getEntry s.perRecipient normalizedRecipient + amountUsdc) }
  let s := { s with
    recentTransactions := s.recentTransactions ++ [(⟨nowMs, amountUsdc, normalizedRecipient⟩ : SpendingRecord)] }
  { s with
    recentTransactions := s.recentTransactions.filter (fun t => nowMs - hourMs < t.timestamp) }

/-- `PolicyEnforcer.recordPayment` (lines 330–374), translated statement by
statement: reset stale buckets, then accumulate. -/
def recordPayment (keys : DateKeys) (nowMs : ℤ) (amountUsdc : ℚ)
    (recipient : String) (s : SpendingState) : SpendingState :=
  let normalizedRecipient := recipient.toLower
  let s := if s.date ≠ keys.date then
    { s with date := keys.date, dailySpent := 0, transactions := 0, perRecipient := [] }
    else s
  let s := if s.weekStart ≠ keys.weekStart then
    { s with weekStart := keys.weekStart, weeklySpent := 0 }
    else s
  let s := if s.monthStart ≠ keys.monthStart then
    { s with monthStart := keys.monthStart, monthlySpent := 0 }
    else s
  let s := { s with dailySpent := s.dailySpent + amountUsdc,
                    weeklySpent := s.weeklySpent + amountUsdc,
                    monthlySpent := s.monthlySpent + amountUsdc,
                    transactions := s.transactions + 1 }
  let s := { s with
    perRecipient := setEntry s.perRecipient normalizedRecipient
      (getEntry s.perRecipient normalizedRecipient + amountUsdc) }
  let s := { s with
    recentTransactions := s.recentTransactions ++ [(⟨nowMs, amountUsdc, normalizedRecipient⟩ : SpendingRecord)] }
  { s with
    recentTransactions := s.recentTransactions.filter (fun t => nowMs - hourMs < t.timestamp) }

/-! ### getStatus -/

/-- The `daily` field of `getStatus`. -/
structure DailyStatus where
  spent : ℚ
  limit : ℚ
  remaining : ℚ
  transactions : ℕ
deriving DecidableEq, Repr

/-- The `weekly`/`monthly` fields of `getStatus`. -/
structure WindowStatus where
  spent : ℚ
  limit : ℚ
  remaining : ℚ
deriving DecidableEq, Repr

/-- The `velocity` field of `getStatus`. The source computes
`Math.max(0, limit - count)` on JS numbers; on `ℕ` this is truncated
subtraction. -/
structure VelocityStatus where
  count : ℕ
  limit : ℕ
  remaining : ℕ
deriving DecidableEq, Repr

/-- Return type of `getStatus`. -/
structure SpendStatus where
  daily : DailyStatus
  weekly : Option WindowStatus
  monthly : Option WindowStatus
  velocity : Option VelocityStatus
  policy : PaymentPolicy
deriving DecidableEq, Repr

/-- `PolicyEnforcer.getStatus` (lines 379–423). -/
def getStatus (policy : PaymentPolicy) (s : SpendingState) (nowMs : ℤ) :
    SpendStatus where
  daily :=
    { spent := s.dailySpent
      limit := policy.dailyLimit
      remaining := max 0 (policy.dailyLimit - s.dailySpent)
      transactions := s.transactions }
  weekly := policy.weeklyLimit.map (fun l =>
    ⟨s.weeklySpent, l, max 0 (l - s.weeklySpent)⟩)
  monthly := policy.monthlyLimit.map (fun l =>
    ⟨s.monthlySpent, l, max 0 (l - s.monthlySpent)⟩)
  velocity := policy.maxTransactionsPerHour.map (fun n =>
    ⟨recentCount s.recentTransactions nowMs, n,
     n - recentCount s.recentTransactions nowMs⟩)
  policy := policy

/-! ### The enforcer object: in-memory fields plus the persisted file -/

/-- A `PolicyEnforcer` instance: its `policy` and `state` fields plus the
content of the spending file (`persisted`; `saveState` overwrites it with the
in-memory state). -/
structure Enforcer where
  policy : PaymentPolicy
  state : SpendingState
  persisted : Option SpendingState
deriving DecidableEq, Repr

/-- The constructor: `this.state = this.loadState()`; nothing is saved. -/
def mkEnforcer (policy : PaymentPolicy) (keys : DateKeys) (nowMs : ℤ)
    (file : Option SpendingState) : Enforcer :=
  ⟨policy, loadState keys nowMs file, file⟩

/-- `checkPayment` as a method: the body reads `this.policy`/`this.state` and
contains no assignment and no `saveState()` call. -/
def checkPaymentE (e : Enforcer) (nowMs : ℤ) (amountUsdc : ℚ)
    (recipient : String) : Enforcer × CheckResult :=
  (e, checkPayment e.policy e.state nowMs amountUsdc recipient)

/-- `getStatus` as a method: read-only as well. -/
def getStatusE (e : Enforcer) (nowMs : ℤ) : Enforcer × SpendStatus :=
  (e, getStatus e.policy e.state nowMs)

/-- `recordPayment` as a method: mutates `this.state` and ends with
`this.saveState()`. -/
def recordPaymentE (e : Enforcer) (keys : DateKeys) (nowMs : ℤ)
    (amountUsdc : ℚ) (recipient : String) : Enforcer :=
  let s := recordPayment keys nowMs amountUsdc recipient e.state
  ⟨e.policy, s, some s⟩

/-- `PolicyEnforcer.freeze` (lines 436–440): zero the two limits, then
`saveState()` (which writes the spending state — the policy itself is not
part of the persisted file). -/
def freezeE (e : Enforcer) : Enforcer :=
  ⟨{ e.policy with maxPerTransaction := 0, dailyLimit := 0 }, e.state,
   some e.state⟩

/-- Spending states reachable through the public API starting from a fresh
state, with the spec's precondition `amount ≥ 0` on recorded payments
(`checkPayment`/`getStatus` do not touch the state). -/
inductive Reach : SpendingState → Prop where
  | init (keys : DateKeys) : Reach (defaultState keys)
  | loadNone (keys : DateKeys) (nowMs : ℤ) : Reach (loadState keys nowMs none)
  | loadSome (keys : DateKeys) (nowMs : ℤ) (s : SpendingState) :
      Reach s → Reach (loadState keys nowMs (some s))
  | record (keys : DateKeys) (nowMs : ℤ) (a : ℚ) (r : String)
      (s : SpendingState) : Reach s → 0 ≤ a →
      Reach (recordPayment keys nowMs a r s)

/-! ### ReceiptStore (`src/receipts.ts`) -/

/-- `PaymentReceipt['status']`. -/
inductive ReceiptStatus where
  | pending
  | success
  | failed
  | blocked
deriving DecidableEq, Repr

/-- `PaymentReceipt` from `src/config.ts`. The `amount` decimal string is
modelled by its parsed rational value (so `parseFloat` is the identity in the
model); `facilitatorResponse` (opaque passthrough) is omitted. -/
structure PaymentReceipt where
  id : String
  timestamp : String
  url : String
  amount : ℚ
  amountRaw : String
  currency : String
  network : String
  recipient : String
  txHash : Option String
  status : ReceiptStatus
  blockReason : Option String
deriving DecidableEq, Repr

/-- The argument of `createReceipt`:
`Omit<PaymentReceipt, 'id' | 'timestamp' | 'status'>`. -/
structure ReceiptInput where
  url : String
  amount : ℚ
  amountRaw : String
  currency : String
  network : String
  recipient : String
  txHash : Option String
  blockReason : Option String
deriving DecidableEq, Repr

/-- The argument of `updateReceipt` (`Partial<PaymentReceipt>` restricted to
the fields updates touch); `some v` is a key present in the update object. -/
structure ReceiptUpdate where
  status : Option ReceiptStatus
  txHash : Option String
  blockReason : Option String
deriving DecidableEq, Repr

/-- `ReceiptStore.createReceipt` (lines 45–55): fresh id and timestamp are
environment-supplied (`randomUUID()`, `new Date().toISOString()`); status is
always `'pending'`; the receipt is appended. -/
def createReceipt (freshId ts : String) (input : ReceiptInput)
    (rs : List PaymentReceipt) : List PaymentReceipt × PaymentReceipt :=
  let receipt : PaymentReceipt :=
    ⟨freshId, ts, input.url, input.amount, input.amountRaw, input.currency,
     input.network, input.recipient, input.txHash, .pending, input.blockReason⟩
  (rs ++ [receipt], receipt)

/-- The JS object spread `{ ...r, ...u }`: keys present in `u` override. -/
def mergeReceipt (r : PaymentReceipt) (u : ReceiptUpdate) : PaymentReceipt :=
  { r with status := u.status.getD r.status,
           txHash := match u.txHash with
             | some h => some h
             | none => r.txHash,
           blockReason := match u.blockReason with
             | some b => some b
             | none => r.blockReason }

/-- `ReceiptStore.updateReceipt` (lines 60–67): find the first receipt with
the given id (`findIndex`), merge the update into it in place, return it;
return `none` when no receipt matches. -/
def updateReceipt (rs : List PaymentReceipt) (id : String) (u : ReceiptUpdate) :
    List PaymentReceipt × Option PaymentReceipt :=
  match rs with
  | [] => ([], none)
  | r :: rest =>
    if r.id == id then (mergeReceipt r u :: rest, some (mergeReceipt r u))
    else
      let res := updateReceipt rest id u
      (r :: res.1, res.2)

/-- `ReceiptStore.recordBlocked` (lines 72–95): build a receipt directly in
`'blocked'` status with the reason, append it. -/
def recordBlocked (freshId ts url : String) (amount : ℚ)
    (amountRaw recipient network reason : String)
    (rs : List PaymentReceipt) : List PaymentReceipt × PaymentReceipt :=
  let receipt : PaymentReceipt :=
    ⟨freshId, ts, url, amount, amountRaw, "USDC", network, recipient, none,
     .blocked, some reason⟩
  (rs ++ [receipt], receipt)

/-- JS `s.startsWith(p)`, modelled at the character-list level (Lean's
`String.startsWith` goes through substring iterators that the kernel cannot
evaluate; the character-list prefix test is its specification). -/
def startsWithB (s p : String) : Bool :=
  p.data.isPrefixOf s.data

/-- `ReceiptStore.getToday` (lines 114–117): receipts whose ISO timestamp
starts with the current UTC date string
(`r.timestamp.startsWith(today)`). -/
def getToday (today : String) (rs : List PaymentReceipt) : List PaymentReceipt :=
  rs.filter (fun r => startsWithB r.timestamp today)

/-- `ReceiptStore.getTodayTotal` (lines 122–126): today's receipts with
status `'success'`, amounts summed by `reduce((sum, r) => sum + ..., 0)`. -/
def getTodayTotal (today : String) (rs : List PaymentReceipt) : ℚ :=
  (((getToday today rs).filter (fun r => r.status == ReceiptStatus.success)).map
    (fun r => r.amount)).foldl (fun sum a => sum + a) 0

/-! ### Concrete fixtures used by witnesses and counterexamples -/

/-- Date keys for 2026-10-11 (a Sunday; week starts Monday 2026-10-05 — the
exact strings are irrelevant to the theorems, only (in)equality matters). -/
def keysA : DateKeys := ⟨"2026-10-11", "2026-10-05", "2026-10-01"⟩

/-- Date keys one day later, same week and month. -/
def keysB : DateKeys := ⟨"2026-10-12", "2026-10-05", "2026-10-01"⟩

/-- A fresh zero state for `keysA`. -/
def freshA : SpendingState := defaultState keysA

/-- Policy whose blacklist and whitelist both contain the same address in
different cases. -/
def policyBoth : PaymentPolicy :=
  ⟨10, 10, none, none, none, none, some ["0xbad"], some ["0xBad"], none, none, none⟩

/-- Policy whose per-transaction cap (100) exceeds its daily limit (5). -/
def policyTxAboveDaily : PaymentPolicy :=
  ⟨100, 5, none, none, none, none, none, none, none, none, none⟩

/-- Permissive two-limit policy (10 per-tx, 10 daily, nothing else). -/
def policyPlain : PaymentPolicy :=
  ⟨10, 10, none, none, none, none, none, none, none, none, none⟩

/-- A state carrying yesterday's daily bucket: date key `keysA.date` with 10
already spent today, same week and month as `keysB`. -/
def staleDaily : SpendingState :=
  ⟨"2026-10-11", "2026-10-05", "2026-10-01", 10, 10, 10, 3, [], []⟩

/-- A finalized successful receipt. -/
def rSuccess : PaymentReceipt :=
  ⟨"id1", "2026-10-11T08:00:00.000Z", "https://api.example.com/data", 1,
   "1000000", "USDC", "base", "0xabc", some "0xh1", .success, none⟩

/-- A pending receipt from the same day. -/
def rPending : PaymentReceipt :=
  ⟨"id2", "2026-10-11T09:00:00.000Z", "https://api.example.com/data", 2,
   "2000000", "USDC", "base", "0xdef", none, .pending, none⟩

lemma resultOfFirstFailure_cons_some (r : DenyReason) (rest : List (Option DenyReason)) :
    resultOfFirstFailure (some r :: rest) = ⟨false, some r⟩ := rfl

lemma resultOfFirstFailure_cons_none (rest : List (Option DenyReason)) :
    resultOfFirstFailure (none :: rest) = resultOfFirstFailure rest := rfl

lemma checkWhitelistStep_eq (policy : PaymentPolicy) (recipient normalized : String) :
    checkWhitelistStep policy recipient normalized =
      resultOfFirstFailure [whitelistCheck policy recipient normalized] := by
  unfold checkWhitelistStep whitelistCheck
  rcases policy.approvedRecipients with _ | al
  · rfl
  · by_cases h : al.length > 0
    · by_cases ha : al.any (fun addr => addr.toLower == normalized)
      · simp [h, ha, resultOfFirstFailure, firstFailure]
      · simp [h, ha, resultOfFirstFailure, firstFailure]
    · simp [h, resultOfFirstFailure, firstFailure]

lemma checkBlacklistStep_eq (policy : PaymentPolicy) (recipient normalized : String) :
    checkBlacklistStep policy recipient normalized =
      resultOfFirstFailure
        [blacklistCheck policy recipient normalized,
         whitelistCheck policy recipient normalized] := by
  unfold checkBlacklistStep blacklistCheck
  rcases policy.blockedRecipients with _ | bl
  · rw [resultOfFirstFailure_cons_none]
    exact checkWhitelistStep_eq policy recipient normalized
  · by_cases h : (bl.length > 0 && bl.any (fun addr => addr.toLower == normalized)) = true
    · simp only [h, if_true, resultOfFirstFailure_cons_some]
    · simp only [h, if_false, Bool.false_eq_true, resultOfFirstFailure_cons_none]
      exact checkWhitelistStep_eq policy recipient normalized

lemma checkPerRecipientStep_eq (policy : PaymentPolicy) (state : SpendingState)
    (amountUsdc : ℚ) (recipient normalized : String) :
    checkPerRecipientStep policy state amountUsdc recipient normalized =
      resultOfFirstFailure
        [perRecipientCheck policy state amountUsdc recipient normalized,
         blacklistCheck policy recipient normalized,
         whitelistCheck policy recipient normalized] := by
  unfold checkPerRecipientStep perRecipientCheck
  rcases policy.perRecipientDailyLimit with _ | l
  · rw [resultOfFirstFailure_cons_none]
    exact checkBlacklistStep_eq policy recipient normalized
  · by_cases h : getEntry state.perRecipient normalized + amountUsdc > l
    · simp only [h, if_true, resultOfFirstFailure_cons_some]
    · simp only [h, if_false, resultOfFirstFailure_cons_none]
      exact checkBlacklistStep_eq policy recipient normalized

lemma checkVelocityStep_eq (policy : PaymentPolicy) (state : SpendingState)
    (nowMs : ℤ) (amountUsdc : ℚ) (recipient normalized : String) :
    checkVelocityStep policy state nowMs amountUsdc recipient normalized =
      resultOfFirstFailure
        [velocityCheck policy state nowMs,
         perRecipientCheck policy state amountUsdc recipient normalized,
         blacklistCheck policy recipient normalized,
         whitelistCheck policy recipient normalized] := by
  unfold checkVelocityStep velocityCheck
  rcases policy.maxTransactionsPerHour with _ | n
  · rw [resultOfFirstFailure_cons_none]
    exact checkPerRecipientStep_eq policy state amountUsdc recipient normalized
  · by_cases h : recentCount state.recentTransactions nowMs ≥ n
    · simp only [h, if_true, resultOfFirstFailure_cons_some]
    · simp only [h, if_false, resultOfFirstFailure_cons_none]
      exact checkPerRecipientStep_eq policy state amountUsdc recipient normalized

lemma checkMonthlyStep_eq (policy : PaymentPolicy) (state : SpendingState)
    (nowMs : ℤ) (amountUsdc : ℚ) (recipient normalized : String) :
    checkMonthlyStep policy state nowMs amountUsdc recipient normalized =
      resultOfFirstFailure
        [monthlyCheck policy state amountUsdc,
         velocityCheck policy state nowMs,
         perRecipientCheck policy state amountUsdc recipient normalized,
         blacklistCheck policy recipient normalized,
         whitelistCheck policy recipient normalized] := by
  unfold checkMonthlyStep monthlyCheck
  rcases policy.monthlyLimit with _ | l
  · rw [resultOfFirstFailure_cons_none]
    exact checkVelocityStep_eq policy state nowMs amountUsdc recipient normalized
  · by_cases h : state.monthlySpent + amountUsdc > l
    · simp only [h, if_true, resultOfFirstFailure_cons_some]
    · simp only [h, if_false, resultOfFirstFailure_cons_none]
      exact checkVelocityStep_eq policy state nowMs amountUsdc recipient normalized

lemma checkWeeklyStep_eq (policy : PaymentPolicy) (state : SpendingState)
    (nowMs : ℤ) (amountUsdc : ℚ) (recipient normalized : String) :
    checkWeeklyStep policy state nowMs amountUsdc recipient normalized =
      resultOfFirstFailure
        [weeklyCheck policy state amountUsdc,
         monthlyCheck policy state amountUsdc,
         velocityCheck policy state nowMs,
         perRecipientCheck policy state amountUsdc recipient normalized,
         blacklistCheck policy recipient normalized,
         whitelistCheck policy recipient normalized] := by
  unfold checkWeeklyStep weeklyCheck
  rcases policy.weeklyLimit with _ | l
  · rw [resultOfFirstFailure_cons_none]
    exact checkMonthlyStep_eq policy state nowMs amountUsdc recipient normalized
  · by_cases h : state.weeklySpent + amountUsdc > l
    · simp only [h, if_true, resultOfFirstFailure_cons_some]
    · simp only [h, if_false, resultOfFirstFailure_cons_none]
      exact checkMonthlyStep_eq policy state nowMs amountUsdc recipient normalized

lemma checkPayment_eq_resultOfFirstFailure (policy : PaymentPolicy)
    (state : SpendingState) (nowMs : ℤ) (amountUsdc : ℚ) (recipient : String) :
    checkPayment policy state nowMs amountUsdc recipient =
      resultOfFirstFailure (checkList policy state nowMs amountUsdc recipient) := by
  unfold checkPayment checkList perTxCheck dailyCheck
  by_cases h1 : amountUsdc > policy.maxPerTransaction
  · simp only [h1, if_true, resultOfFirstFailure_cons_some]
  · simp only [h1, if_false, resultOfFirstFailure_cons_none]
    by_cases h2 : state.dailySpent + amountUsdc > policy.dailyLimit
    · simp only [h2, if_true, resultOfFirstFailure_cons_some]
    · simp only [h2, if_false, resultOfFirstFailure_cons_none]
      exact checkWeeklyStep_eq policy state nowMs amountUsdc recipient recipient.toLower

/-! ### Step lemmas: a passing check falls through to the next one -/

lemma inList_iff_any (l : List String) (r : String) :
    inList l r ↔ l.any (fun addr => addr.toLower == r.toLower) = true := by
  simp [inList, List.any_eq_true, beq_iff_eq]

lemma checkWeeklyStep_pass (policy : PaymentPolicy) (state : SpendingState)
    (nowMs : ℤ) (amountUsdc : ℚ) (recipient normalized : String)
    (h : ∀ l, policy.weeklyLimit = some l → state.weeklySpent + amountUsdc ≤ l) :
    checkWeeklyStep policy state nowMs amountUsdc recipient normalized =
      checkMonthlyStep policy state nowMs amountUsdc recipient normalized := by
  unfold checkWeeklyStep
  rcases hw : policy.weeklyLimit with _ | l
  · rfl
  · dsimp only
    rw [if_neg (not_lt.mpr (h l hw))]

lemma checkMonthlyStep_pass (policy : PaymentPolicy) (state : SpendingState)
    (nowMs : ℤ) (amountUsdc : ℚ) (recipient normalized : String)
    (h : ∀ l, policy.monthlyLimit = some l → state.monthlySpent + amountUsdc ≤ l) :
    checkMonthlyStep policy state nowMs amountUsdc recipient normalized =
      checkVelocityStep policy state nowMs amountUsdc recipient normalized := by
  unfold checkMonthlyStep
  rcases hm : policy.monthlyLimit with _ | l
  · rfl
  · dsimp only
    rw [if_neg (not_lt.mpr (h l hm))]

lemma checkVelocityStep_pass (policy : PaymentPolicy) (state : SpendingState)
    (nowMs : ℤ) (amountUsdc : ℚ) (recipient normalized : String)
    (h : ∀ n, policy.maxTransactionsPerHour = some n →
      recentCount state.recentTransactions nowMs < n) :
    checkVelocityStep policy state nowMs amountUsdc recipient normalized =
      checkPerRecipientStep policy state amountUsdc recipient normalized := by
  unfold checkVelocityStep
  rcases hv : policy.maxTransactionsPerHour with _ | n
  · rfl
  · dsimp only
    rw [if_neg (not_le.mpr (h n hv))]

lemma checkPerRecipientStep_pass (policy : PaymentPolicy) (state : SpendingState)
    (amountUsdc : ℚ) (recipient normalized : String)
    (h : ∀ l, policy.perRecipientDailyLimit = some l →
      getEntry state.perRecipient normalized + amountUsdc ≤ l) :
    checkPerRecipientStep policy state amountUsdc recipient normalized =
      checkBlacklistStep policy recipient normalized := by
  unfold checkPerRecipientStep
  rcases hp : policy.perRecipientDailyLimit with _ | l
  · rfl
  · dsimp only
    rw [if_neg (not_lt.mpr (h l hp))]

lemma checkBlacklistStep_pass (policy : PaymentPolicy) (recipient normalized : String)
    (h : ∀ l, policy.blockedRecipients = some l →
      l.any (fun addr => addr.toLower == normalized) = false) :
    checkBlacklistStep policy recipient normalized =
      checkWhitelistStep policy recipient normalized := by
  unfold checkBlacklistStep
  rcases hb : policy.blockedRecipients with _ | l
  · rfl
  · dsimp only
    rw [if_neg]
    simp [h l hb]

lemma checkWhitelistStep_pass (policy : PaymentPolicy) (recipient normalized : String)
    (h : ∀ l, policy.approvedRecipients = some l → l ≠ [] →
      l.any (fun addr => addr.toLower == normalized) = true) :
    checkWhitelistStep policy recipient normalized = ⟨true, none⟩ := by
  unfold checkWhitelistStep
  rcases ha : policy.approvedRecipients with _ | l
  · rfl
  · rcases l with _ | ⟨a, l⟩
    · rfl
    · dsimp only
      rw [if_pos (by simp), if_pos (h _ ha (by simp))]

/-! ### Blacklist precedence lemmas -/

lemma checkBlacklistStep_member (policy : PaymentPolicy)
    (recipient : String) (bl : List String)
    (hb : policy.blockedRecipients = some bl) (hm : inList bl recipient) :
    checkBlacklistStep policy recipient recipient.toLower =
      ⟨false, some (.blockedRecipient recipient)⟩ := by
  unfold checkBlacklistStep
  rw [hb]
  dsimp only
  have hany : (bl.any fun addr => addr.toLower == recipient.toLower) = true :=
    (inList_iff_any bl recipient).mp hm
  have hlen : 0 < bl.length := by
    rcases hm with ⟨addr, hmem, _⟩
    exact List.length_pos_of_mem hmem
  rw [if_pos (by simp [hany, hlen])]

/-- The result is a denial and the reason is not the whitelist reason. -/
def DeniedNotViaWhitelist (res : CheckResult) : Prop :=
  res.allowed = false ∧ ∀ s, res.reason ≠ some (DenyReason.notWhitelisted s)

lemma denied_of_blockedReason (recipient : String) :
    DeniedNotViaWhitelist ⟨false, some (.blockedRecipient recipient)⟩ := by
  exact ⟨rfl, by intro s h; cases h⟩

lemma perRecipientStep_inBoth (policy : PaymentPolicy) (state : SpendingState)
    (amountUsdc : ℚ) (recipient : String) (bl : List String)
    (hb : policy.blockedRecipients = some bl) (hm : inList bl recipient) :
    DeniedNotViaWhitelist
      (checkPerRecipientStep policy state amountUsdc recipient recipient.toLower) := by
  unfold checkPerRecipientStep
  rcases policy.perRecipientDailyLimit with _ | l
  · rw [checkBlacklistStep_member policy recipient bl hb hm]
    exact denied_of_blockedReason recipient
  · dsimp only
    split_ifs
    · exact ⟨rfl, by intro s h; cases h⟩
    · rw [checkBlacklistStep_member policy recipient bl hb hm]
      exact denied_of_blockedReason recipient

lemma velocityStep_inBoth (policy : PaymentPolicy) (state : SpendingState)
    (nowMs : ℤ) (amountUsdc : ℚ) (recipient : String) (bl : List String)
    (hb : policy.blockedRecipients = some bl) (hm : inList bl recipient) :
    DeniedNotViaWhitelist
      (checkVelocityStep policy state nowMs amountUsdc recipient recipient.toLower) := by
  unfold checkVelocityStep
  rcases policy.maxTransactionsPerHour with _ | n
  · exact perRecipientStep_inBoth policy state amountUsdc recipient bl hb hm
  · dsimp only
    split_ifs
    · exact ⟨rfl, by intro s h; cases h⟩
    · exact perRecipientStep_inBoth policy state amountUsdc recipient bl hb hm

lemma monthlyStep_inBoth (policy : PaymentPolicy) (state : SpendingState)
    (nowMs : ℤ) (amountUsdc : ℚ) (recipient : String) (bl : List String)
    (hb : policy.blockedRecipients = some bl) (hm : inList bl recipient) :
    DeniedNotViaWhitelist
      (checkMonthlyStep policy state nowMs amountUsdc recipient recipient.toLower) := by
  unfold checkMonthlyStep
  rcases policy.monthlyLimit with _ | l
  · exact velocityStep_inBoth policy state nowMs amountUsdc recipient bl hb hm
  · dsimp only
    split_ifs
    · exact ⟨rfl, by intro s h; cases h⟩
    · exact velocityStep_inBoth policy state nowMs amountUsdc recipient bl hb hm

lemma weeklyStep_inBoth (policy : PaymentPolicy) (state : SpendingState)
    (nowMs : ℤ) (amountUsdc : ℚ) (recipient : String) (bl : List String)
    (hb : policy.blockedRecipients = some bl) (hm : inList bl recipient) :
    DeniedNotViaWhitelist
      (checkWeeklyStep policy state nowMs amountUsdc recipient recipient.toLower) := by
  unfold checkWeeklyStep
  rcases policy.weeklyLimit with _ | l
  · exact monthlyStep_inBoth policy state nowMs amountUsdc recipient bl hb hm
  · dsimp only
    split_ifs
    · exact ⟨rfl, by intro s h; cases h⟩
    · exact monthlyStep_inBoth policy state nowMs amountUsdc recipient bl hb hm

lemma checkPayment_inBoth (policy : PaymentPolicy) (state : SpendingState)
    (nowMs : ℤ) (amountUsdc : ℚ) (recipient : String) (bl : List String)
    (hb : policy.blockedRecipients = some bl) (hm : inList bl recipient) :
    DeniedNotViaWhitelist (checkPayment policy state nowMs amountUsdc recipient) := by
  unfold checkPayment
  dsimp only
  split_ifs
  · exact ⟨rfl, by intro s h; cases h⟩
  · exact ⟨rfl, by intro s h; cases h⟩
  · exact weeklyStep_inBoth policy state nowMs amountUsdc recipient bl hb hm

lemma checkPayment_numericPass_inBlacklist (policy : PaymentPolicy)
    (state : SpendingState) (nowMs : ℤ) (amountUsdc : ℚ) (recipient : String)
    (bl : List String)
    (hb : policy.blockedRecipients = some bl) (hm : inList bl recipient)
    (hp : numericChecksPass policy state nowMs amountUsdc recipient) :
    checkPayment policy state nowMs amountUsdc recipient =
      ⟨false, some (.blockedRecipient recipient)⟩ := by
  obtain ⟨h1, h2, h3, h4, h5, h6⟩ := hp
  unfold checkPayment
  rw [if_neg (not_lt.mpr h1), if_neg (not_lt.mpr h2),
    checkWeeklyStep_pass policy state nowMs amountUsdc recipient recipient.toLower h3,
    checkMonthlyStep_pass policy state nowMs amountUsdc recipient recipient.toLower h4,
    checkVelocityStep_pass policy state nowMs amountUsdc recipient recipient.toLower h5,
    checkPerRecipientStep_pass policy state amountUsdc recipient recipient.toLower h6,
    checkBlacklistStep_member policy recipient bl hb hm]

/-! ### Claim theorems -/

/-- C1: for every policy, ledger state, amount, and recipient, `checkPayment`
evaluates its checks in the fixed order per-transaction cap, daily limit,
weekly limit, monthly limit, velocity limit, per-recipient daily limit,
blacklist, whitelist (addresses compared case-insensitively) and returns the
reason of the first failing check; a recipient present (case-insensitively)
in both `blockedRecipients` and `approvedRecipients` is always denied, never
with the whitelist reason, and — whenever the preceding numeric checks pass,
so that a list check is the first failing one — with the blocked-recipient
reason. -/
theorem checkPayment_order_and_blacklist_precedence
    (policy : PaymentPolicy) (state : SpendingState) (nowMs : ℤ)
    (amountUsdc : ℚ) (recipient : String) :
    checkPayment policy state nowMs amountUsdc recipient =
      resultOfFirstFailure (checkList policy state nowMs amountUsdc recipient)
    ∧ (∀ bl al, policy.blockedRecipients = some bl →
        policy.approvedRecipients = some al →
        inList bl recipient → inList al recipient →
        (checkPayment policy state nowMs amountUsdc recipient).allowed = false
        ∧ (∀ s, (checkPayment policy state nowMs amountUsdc recipient).reason ≠
            some (DenyReason.notWhitelisted s))
        ∧ (numericChecksPass policy state nowMs amountUsdc recipient →
            checkPayment policy state nowMs amountUsdc recipient =
              ⟨false, some (DenyReason.blockedRecipient recipient)⟩)) := by
  refine ⟨checkPayment_eq_resultOfFirstFailure policy state nowMs amountUsdc recipient, ?_⟩
  intro bl al hb _ hmb _
  obtain ⟨h1, h2⟩ := checkPayment_inBoth policy state nowMs amountUsdc recipient bl hb hmb
  exact ⟨h1, h2, fun hp =>
    checkPayment_numericPass_inBlacklist policy state nowMs amountUsdc recipient bl hb hmb hp⟩

/-- C1 witness: with `policyBoth` (blacklist `["0xBad"]`, whitelist
`["0xbad"]`) and a fresh ledger, `checkPayment 1 "0xBAD"` is denied with the
blocked-recipient reason. -/
theorem checkPayment_order_and_blacklist_precedence_witness :
    checkPayment policyBoth freshA 0 1 "0xBAD" =
      ⟨false, some (DenyReason.blockedRecipient "0xBAD")⟩ := by
  have h := (checkPayment_order_and_blacklist_precedence policyBoth freshA 0 1 "0xBAD").2
    ["0xBad"] ["0xbad"] rfl rfl
    ⟨"0xBad", by simp, by simp [String.toLower, String.map_eq]⟩
    ⟨"0xbad", by simp, by simp [String.toLower, String.map_eq]⟩
  refine h.2.2 ?_
  refine ⟨by norm_num [policyBoth], ?_, ?_, ?_, ?_, ?_⟩ <;>
    simp [policyBoth, freshA, defaultState, keysA]

/-- C2 counterexample: `checkPayment` does not roll stale buckets over. With
the 10/10 policy, a state whose daily bucket carries yesterday's key
(`staleDaily.date ≠ keysB.date`) and 10 already counted, `checkPayment 1` is
denied — while on the rolled-over state the same call is allowed, so the
limits were evaluated against the stale bucket, not the rolled-over one. -/
theorem checkPayment_stale_bucket_counterexample :
    (checkPayment policyPlain staleDaily 0 1 "0xabc").allowed = false
    ∧ (checkPayment policyPlain (rolloverBuckets keysB staleDaily) 0 1 "0xabc").allowed = true
    ∧ staleDaily.date ≠ keysB.date := by
  refine ⟨?_, ?_, by decide⟩
  · norm_num [checkPayment, policyPlain, staleDaily]
  · have hro : rolloverBuckets keysB staleDaily =
        ⟨"2026-10-12", "2026-10-05", "2026-10-01", 0, 10, 10, 0, [], []⟩ := by
      simp [rolloverBuckets, staleDaily, keysB]
    rw [hro]
    norm_num [checkPayment, checkWeeklyStep, checkMonthlyStep, checkVelocityStep,
      checkPerRecipientStep, checkBlacklistStep, checkWhitelistStep, policyPlain]

/-- C2 (amended): the bucket rollover runs at the start of `recordPayment`
and when an existing state is loaded (`loadState`), not in `checkPayment`:
`recordPayment` is exactly rollover followed by accumulation, and
`loadState (some s)` is exactly rollover followed by velocity pruning. Each
bucket is reset independently, to zero, exactly when its stored key differs
from the computed key, with the daily rollover also clearing the
per-recipient map and the transaction counter. -/
theorem rollover_runs_in_record_and_load (keys : DateKeys) (nowMs : ℤ)
    (a : ℚ) (r : String) (s : SpendingState) :
    recordPayment keys nowMs a r s =
      applyPayment nowMs a r.toLower (rolloverBuckets keys s)
    ∧ loadState keys nowMs (some s) = pruneRecent nowMs (rolloverBuckets keys s)
    ∧ (rolloverBuckets keys s).dailySpent =
        (if s.date = keys.date then s.dailySpent else 0)
    ∧ (rolloverBuckets keys s).weeklySpent =
        (if s.weekStart = keys.weekStart then s.weeklySpent else 0)
    ∧ (rolloverBuckets keys s).monthlySpent =
        (if s.monthStart = keys.monthStart then s.monthlySpent else 0)
    ∧ (rolloverBuckets keys s).transactions =
        (if s.date = keys.date then s.transactions else 0)
    ∧ (rolloverBuckets keys s).perRecipient =
        (if s.date = keys.date then s.perRecipient else [])
    ∧ (rolloverBuckets keys s).recentTransactions = s.recentTransactions
    ∧ (rolloverBuckets keys s).date = keys.date
    ∧ (rolloverBuckets keys s).weekStart = keys.weekStart
    ∧ (rolloverBuckets keys s).monthStart = keys.monthStart := by
  by_cases h1 : s.date = keys.date <;>
    by_cases h2 : s.weekStart = keys.weekStart <;>
    by_cases h3 : s.monthStart = keys.monthStart <;>
    simp [recordPayment, applyPayment, rolloverBuckets, loadState, pruneRecent,
      h1, h2, h3]

/-- C3 counterexample: after `freeze()`, a `checkPayment` call with amount 0
on a fresh ledger is still allowed (0 does not strictly exceed the zeroed
limits), so not *every* amount is denied. -/
theorem freeze_zero_amount_allowed :
    (checkPaymentE (freezeE ⟨DEFAULT_POLICY, freshA, none⟩) 0 0 "0xabc").2 =
      ⟨true, none⟩ := by
  norm_num [checkPaymentE, freezeE, checkPayment, checkWeeklyStep,
    checkMonthlyStep, checkVelocityStep, checkPerRecipientStep,
    checkBlacklistStep, checkWhitelistStep, DEFAULT_POLICY, freshA,
    defaultState, recentCount]

/-- C3 (amended): `freeze()` zeroes `maxPerTransaction` and `dailyLimit` and
immediately persists the (unchanged) spending state; every subsequent
`checkPayment` call on the instance with a *positive* amount — for every
ledger state and recipient — is denied (an amount ≤ 0 can still be allowed
on a fresh ledger). -/
theorem freeze_denies_all_positive (e : Enforcer) :
    (freezeE e).policy.maxPerTransaction = 0
    ∧ (freezeE e).policy.dailyLimit = 0
    ∧ (freezeE e).persisted = some (freezeE e).state
    ∧ ∀ (s : SpendingState) (nowMs : ℤ) (a : ℚ) (r : String), 0 < a →
        (checkPayment (freezeE e).policy s nowMs a r).allowed = false := by
  refine ⟨rfl, rfl, rfl, ?_⟩
  intro s nowMs a r ha
  unfold checkPayment
  rw [if_pos]
  exact ha

/-- C3 witness: freezing the default-policy enforcer denies a 0.01 payment. -/
theorem freeze_denies_all_positive_witness :
    (checkPayment (freezeE ⟨DEFAULT_POLICY, freshA, none⟩).policy freshA 0
      (1/100) "0xabc").allowed = false :=
  (freeze_denies_all_positive ⟨DEFAULT_POLICY, freshA, none⟩).2.2.2
    freshA 0 (1/100) "0xabc" (by norm_num)

/-- C4 counterexample: with a fresh (zero) ledger, no blacklist and no
whitelist, an amount of 10 ≤ `maxPerTransaction` (100) is still denied,
because it exceeds the daily limit (5). The claim's "allowed for all
a ≤ maxPerTransaction" ignores the other configured limits. -/
theorem fresh_below_cap_still_denied :
    (checkPayment policyTxAboveDaily freshA 0 10 "0xabc").allowed = false
    ∧ (10 : ℚ) ≤ policyTxAboveDaily.maxPerTransaction
    ∧ policyTxAboveDaily.blockedRecipients = none
    ∧ policyTxAboveDaily.approvedRecipients = none := by
  refine ⟨?_, by norm_num [policyTxAboveDaily], rfl, rfl⟩
  norm_num [checkPayment, policyTxAboveDaily, freshA, defaultState]

/-- C4 (amended): every limit comparison is strict. For all `a` strictly
above `maxPerTransaction`, `checkPayment` denies with the per-transaction
reason; and on a fresh (zero) ledger, with the recipient not blacklisted and
the whitelist absent, empty, or matching, `checkPayment` allows every `a`
that is ≤ `maxPerTransaction`, ≤ `dailyLimit`, and ≤ each configured
weekly/monthly/per-recipient limit, provided any configured velocity limit
is positive — in particular an amount landing exactly on the limits is
allowed. -/
theorem checkPayment_strict_comparisons (policy : PaymentPolicy)
    (state : SpendingState) (nowMs : ℤ) (a : ℚ) (r : String) :
    (a > policy.maxPerTransaction →
      checkPayment policy state nowMs a r =
        ⟨false, some (DenyReason.perTransactionLimit a policy.maxPerTransaction)⟩)
    ∧ (∀ keys : DateKeys,
        a ≤ policy.maxPerTransaction →
        a ≤ policy.dailyLimit →
        (∀ l, policy.weeklyLimit = some l → a ≤ l) →
        (∀ l, policy.monthlyLimit = some l → a ≤ l) →
        (∀ n, policy.maxTransactionsPerHour = some n → 0 < n) →
        (∀ l, policy.perRecipientDailyLimit = some l → a ≤ l) →
        (∀ l, policy.blockedRecipients = some l →
          l.any (fun addr => addr.toLower == r.toLower) = false) →
        (∀ l, policy.approvedRecipients = some l → l ≠ [] →
          l.any (fun addr => addr.toLower == r.toLower) = true) →
        checkPayment policy (defaultState keys) nowMs a r = ⟨true, none⟩) := by
  constructor
  · intro h
    unfold checkPayment
    rw [if_pos h]
  · intro keys h1 h2 h3 h4 h5 h6 h7 h8
    unfold checkPayment
    rw [if_neg (not_lt.mpr h1), if_neg (not_lt.mpr (by simpa [defaultState] using h2)),
      checkWeeklyStep_pass _ _ _ _ _ _
        (fun l hl => by simpa [defaultState] using h3 l hl),
      checkMonthlyStep_pass _ _ _ _ _ _
        (fun l hl => by simpa [defaultState] using h4 l hl),
      checkVelocityStep_pass _ _ _ _ _ _
        (fun n hn => by simpa [defaultState, recentCount] using h5 n hn),
      checkPerRecipientStep_pass _ _ _ _ _
        (fun l hl => by simpa [defaultState, getEntry] using h6 l hl),
      checkBlacklistStep_pass _ _ _ h7,
      checkWhitelistStep_pass _ _ _ h8]

/-- C4 witness: with the 10/10 policy and a fresh ledger, a payment landing
exactly on both limits (10) is allowed, exercising the strict comparison. -/
theorem checkPayment_strict_comparisons_witness :
    checkPayment policyPlain (defaultState keysA) 0 10 "0xabc" = ⟨true, none⟩ :=
  (checkPayment_strict_comparisons policyPlain (defaultState keysA) 0 10 "0xabc").2
    keysA (by norm_num [policyPlain]) (by norm_num [policyPlain])
    (by simp [policyPlain]) (by simp [policyPlain]) (by simp [policyPlain])
    (by simp [policyPlain]) (by simp [policyPlain]) (by simp [policyPlain])

/-- C5: `checkPayment` and `getStatus` are side-effect-free: the enforcer
(state and persisted file included) after either call equals the enforcer
before it, and two consecutive `getStatus` calls with the same clock reading
yield identical results. -/
theorem checkPayment_getStatus_readonly (e : Enforcer) (nowMs : ℤ) (a : ℚ)
    (r : String) :
    (checkPaymentE e nowMs a r).1 = e
    ∧ (getStatusE e nowMs).1 = e
    ∧ (getStatusE (getStatusE e nowMs).1 nowMs).2 = (getStatusE e nowMs).2 :=
  ⟨rfl, rfl, rfl⟩

lemma recordPayment_buckets (keys : DateKeys) (nowMs : ℤ) (a : ℚ)
    (r : String) (s : SpendingState) :
    (recordPayment keys nowMs a r s).dailySpent =
      (if s.date = keys.date then s.dailySpent else 0) + a
    ∧ (recordPayment keys nowMs a r s).weeklySpent =
      (if s.weekStart = keys.weekStart then s.weeklySpent else 0) + a
    ∧ (recordPayment keys nowMs a r s).monthlySpent =
      (if s.monthStart = keys.monthStart then s.monthlySpent else 0) + a
    ∧ (recordPayment keys nowMs a r s).perRecipient =
      setEntry (if s.date = keys.date then s.perRecipient else []) r.toLower
        (getEntry (if s.date = keys.date then s.perRecipient else []) r.toLower + a) := by
  by_cases h1 : s.date = keys.date <;>
    by_cases h2 : s.weekStart = keys.weekStart <;>
    by_cases h3 : s.monthStart = keys.monthStart <;>
    simp [recordPayment, h1, h2, h3]

lemma max_zero_sub_of_nonneg (x a : ℚ) (ha : 0 ≤ a) :
    max 0 (x - a) = max 0 (max 0 x - a) := by
  rcases le_total 0 x with h | h
  · rw [max_eq_right h]
  · rw [max_eq_left h, max_eq_left (by linarith), max_eq_left (by linarith)]

/-- C6: with no daily rollover between the calls (`s.date = keys.date`) and
`a ≥ 0`, `recordPayment a r` makes `getStatus().daily.spent` exactly `a`
larger and `daily.remaining` exactly `a` smaller, clamped at zero; and no
window ever reports a negative `remaining`. -/
theorem recordPayment_daily_delta (policy : PaymentPolicy) (keys : DateKeys)
    (nowMs : ℤ) (a : ℚ) (r : String) (s : SpendingState)
    (ha : 0 ≤ a) (hd : s.date = keys.date) :
    (getStatus policy (recordPayment keys nowMs a r s) nowMs).daily.spent =
      (getStatus policy s nowMs).daily.spent + a
    ∧ (getStatus policy (recordPayment keys nowMs a r s) nowMs).daily.remaining =
      max 0 ((getStatus policy s nowMs).daily.remaining - a)
    ∧ (∀ (p2 : PaymentPolicy) (s2 : SpendingState) (n2 : ℤ),
        0 ≤ (getStatus p2 s2 n2).daily.remaining
        ∧ (∀ w, (getStatus p2 s2 n2).weekly = some w → 0 ≤ w.remaining)
        ∧ (∀ m, (getStatus p2 s2 n2).monthly = some m → 0 ≤ m.remaining)) := by
  have hds := (recordPayment_buckets keys nowMs a r s).1
  rw [if_pos hd] at hds
  refine ⟨by simp [getStatus, hds], ?_, ?_⟩
  · simp only [getStatus, hds]
    rw [show policy.dailyLimit - (s.dailySpent + a) =
      policy.dailyLimit - s.dailySpent - a by ring]
    exact max_zero_sub_of_nonneg _ a ha
  · intro p2 s2 n2
    refine ⟨le_max_left _ _, ?_, ?_⟩ <;> intro w hw
    · simp only [getStatus, Option.map_eq_some'] at hw
      obtain ⟨l, _, rfl⟩ := hw
      exact le_max_left _ _
    · simp only [getStatus, Option.map_eq_some'] at hw
      obtain ⟨l, _, rfl⟩ := hw
      exact le_max_left _ _

/-- C6 witness: recording 2 on the fresh 10/10 ledger raises
`daily.spent` from 0 to 2 and lowers `daily.remaining` from 10 to 8. -/
theorem recordPayment_daily_delta_witness :
    (getStatus policyPlain (recordPayment keysA 0 2 "0xabc" freshA) 0).daily.spent =
      (getStatus policyPlain freshA 0).daily.spent + 2
    ∧ (getStatus policyPlain (recordPayment keysA 0 2 "0xabc" freshA) 0).daily.remaining =
      max 0 ((getStatus policyPlain freshA 0).daily.remaining - 2) :=
  ⟨(recordPayment_daily_delta policyPlain keysA 0 2 "0xabc" freshA
      (by norm_num) rfl).1,
   (recordPayment_daily_delta policyPlain keysA 0 2 "0xabc" freshA
      (by norm_num) rfl).2.1⟩

lemma mem_setEntry {m : List (String × ℚ)} {k : String} {v : ℚ}
    {kv : String × ℚ} (h : kv ∈ setEntry m k v) : kv = (k, v) ∨ kv ∈ m := by
  induction m with
  | nil => simpa [setEntry] using h
  | cons p rest ih =>
    obtain ⟨k', v'⟩ := p
    simp only [setEntry] at h
    by_cases hk : (k' == k) = true
    · rw [if_pos hk] at h
      rcases List.mem_cons.mp h with h | h
      · exact Or.inl h
      · exact Or.inr (List.mem_cons_of_mem _ h)
    · rw [if_neg hk] at h
      rcases List.mem_cons.mp h with h | h
      · exact Or.inr (h ▸ List.mem_cons_self _ _)
      · rcases ih h with h | h
        · exact Or.inl h
        · exact Or.inr (List.mem_cons_of_mem _ h)

lemma getEntry_nonneg {m : List (String × ℚ)} (hm : ∀ kv ∈ m, 0 ≤ kv.2)
    (k : String) : 0 ≤ getEntry m k := by
  unfold getEntry
  cases hf : m.find? (fun kv => kv.1 == k) with
  | none => simp
  | some kv =>
    simp only [Option.map_some', Option.getD_some]
    exact hm kv (List.mem_of_find?_eq_some hf)

lemma getEntry_setEntry (m : List (String × ℚ)) (k j : String) (v : ℚ) :
    getEntry (setEntry m k v) j = if k = j then v else getEntry m j := by
  induction m with
  | nil =>
    by_cases h : k = j <;> simp [setEntry, getEntry, beq_iff_eq, h]
  | cons p rest ih =>
    obtain ⟨k', v'⟩ := p
    by_cases hk : k' = k
    · subst hk
      by_cases h : k' = j <;> simp [setEntry, getEntry, beq_iff_eq, h]
    · by_cases h : k' = j
      · subst h
        have hkj : ¬k = k' := fun hh => hk hh.symm
        simp [setEntry, getEntry, beq_iff_eq, hk, hkj]
      · have hk' : (k' == k) = false := by simpa [beq_iff_eq] using hk
        have hj' : (k' == j) = false := by simpa [beq_iff_eq] using h
        simp only [setEntry, getEntry, hk', Bool.false_eq_true, if_false,
          List.find?_cons, hj'] at ih ⊢
        exact ih

lemma getEntry_setEntry_mono (base : List (String × ℚ)) (k key : String)
    (a : ℚ) (ha : 0 ≤ a) :
    getEntry base k ≤ getEntry (setEntry base key (getEntry base key + a)) k := by
  rw [getEntry_setEntry]
  by_cases h : key = k
  · rw [if_pos h, ← h]
    linarith
  · rw [if_neg h]

lemma loadState_some_buckets (keys : DateKeys) (nowMs : ℤ) (s : SpendingState) :
    (loadState keys nowMs (some s)).dailySpent =
      (if s.date = keys.date then s.dailySpent else 0)
    ∧ (loadState keys nowMs (some s)).weeklySpent =
      (if s.weekStart = keys.weekStart then s.weeklySpent else 0)
    ∧ (loadState keys nowMs (some s)).monthlySpent =
      (if s.monthStart = keys.monthStart then s.monthlySpent else 0)
    ∧ (loadState keys nowMs (some s)).perRecipient =
      (if s.date = keys.date then s.perRecipient else []) := by
  by_cases h1 : s.date = keys.date <;>
    by_cases h2 : s.weekStart = keys.weekStart <;>
    by_cases h3 : s.monthStart = keys.monthStart <;>
    simp [loadState, h1, h2, h3]

/-- C7: every spending state reachable through the API (with the spec's
`amount ≥ 0` precondition) has non-negative daily/weekly/monthly totals and
non-negative per-recipient totals; within an unchanged bucket a
`recordPayment` only increases the total, and on a rollover the total is
reset to exactly zero before the new amount is added, never partially;
`checkPayment` and `getStatus` leave the state untouched. -/
theorem reachable_totals_nonneg_monotone (s : SpendingState) (h : Reach s) :
    (0 ≤ s.dailySpent ∧ 0 ≤ s.weeklySpent ∧ 0 ≤ s.monthlySpent
      ∧ ∀ kv ∈ s.perRecipient, 0 ≤ kv.2)
    ∧ (∀ (keys : DateKeys) (nowMs : ℤ) (a : ℚ) (r : String), 0 ≤ a →
        (s.date = keys.date →
          s.dailySpent ≤ (recordPayment keys nowMs a r s).dailySpent)
        ∧ (s.date ≠ keys.date →
          (recordPayment keys nowMs a r s).dailySpent = 0 + a)
        ∧ (s.weekStart = keys.weekStart →
          s.weeklySpent ≤ (recordPayment keys nowMs a r s).weeklySpent)
        ∧ (s.weekStart ≠ keys.weekStart →
          (recordPayment keys nowMs a r s).weeklySpent = 0 + a)
        ∧ (s.monthStart = keys.monthStart →
          s.monthlySpent ≤ (recordPayment keys nowMs a r s).monthlySpent)
        ∧ (s.monthStart ≠ keys.monthStart →
          (recordPayment keys nowMs a r s).monthlySpent = 0 + a)
        ∧ (s.date = keys.date → ∀ k,
          getEntry s.perRecipient k ≤
            getEntry (recordPayment keys nowMs a r s).perRecipient k))
    ∧ (∀ (e : Enforcer) (nowMs : ℤ) (a : ℚ) (r : String),
        (checkPaymentE e nowMs a r).1.state = e.state
        ∧ (getStatusE e nowMs).1.state = e.state) := by
  refine ⟨?_, ?_, fun e nowMs a r => ⟨rfl, rfl⟩⟩
  · induction h with
    | init keys => simp [defaultState]
    | loadNone keys nowMs => simp [loadState, defaultState]
    | loadSome keys nowMs t _ ih =>
      obtain ⟨h1, h2, h3, h4⟩ := ih
      obtain ⟨e1, e2, e3, e4⟩ := loadState_some_buckets keys nowMs t
      refine ⟨?_, ?_, ?_, ?_⟩
      · rw [e1]; split_ifs <;> simp [h1]
      · rw [e2]; split_ifs <;> simp [h2]
      · rw [e3]; split_ifs <;> simp [h3]
      · rw [e4]
        split_ifs
        · exact h4
        · intro kv hkv; cases hkv
    | record keys nowMs a r t _ ha ih =>
      obtain ⟨h1, h2, h3, h4⟩ := ih
      obtain ⟨e1, e2, e3, e4⟩ := recordPayment_buckets keys nowMs a r t
      have hbase : ∀ kv ∈ (if t.date = keys.date then t.perRecipient else []),
          0 ≤ kv.2 := by
        split_ifs
        · exact h4
        · intro kv hkv; cases hkv
      refine ⟨?_, ?_, ?_, ?_⟩
      · rw [e1]; split_ifs <;> linarith
      · rw [e2]; split_ifs <;> linarith
      · rw [e3]; split_ifs <;> linarith
      · rw [e4]
        intro kv hkv
        rcases mem_setEntry hkv with rfl | hm
        · exact add_nonneg (getEntry_nonneg hbase _) ha
        · exact hbase kv hm
  · intro keys nowMs a r ha
    obtain ⟨e1, e2, e3, e4⟩ := recordPayment_buckets keys nowMs a r s
    refine ⟨?_, ?_, ?_, ?_, ?_, ?_, ?_⟩
    · intro hd; rw [e1, if_pos hd]; linarith
    · intro hd; rw [e1, if_neg hd]
    · intro hd; rw [e2, if_pos hd]; linarith
    · intro hd; rw [e2, if_neg hd]
    · intro hd; rw [e3, if_pos hd]; linarith
    · intro hd; rw [e3, if_neg hd]
    · intro hd k
      rw [e4, if_pos hd]
      exact getEntry_setEntry_mono s.perRecipient k r.toLower a ha

/-- C7 witness: the fresh state for `keysA` is reachable, its totals are
non-negative, and recording 3 on it within the same day only increases the
daily total. -/
theorem reachable_totals_nonneg_monotone_witness :
    0 ≤ freshA.dailySpent
    ∧ freshA.dailySpent ≤ (recordPayment keysA 0 3 "0xabc" freshA).dailySpent := by
  have h := reachable_totals_nonneg_monotone freshA (Reach.init keysA)
  exact ⟨h.1.1, (h.2.1 keysA 0 3 "0xabc" (by norm_num)).1 rfl⟩

/-- C8 counterexample: a negative amount is neither rejected nor flagged:
`checkPayment(-1)` on a fresh default-policy ledger returns
`{allowed: true}`, and `recordPayment(-1)` records it, driving the daily
total to −1. -/
theorem negative_amount_not_rejected :
    checkPayment DEFAULT_POLICY freshA 0 (-1) "0xabc" = ⟨true, none⟩
    ∧ (recordPayment keysA 0 (-1) "0xabc" freshA).dailySpent = -1 := by
  constructor
  · norm_num [checkPayment, checkWeeklyStep, checkMonthlyStep,
      checkVelocityStep, checkPerRecipientStep, checkBlacklistStep,
      checkWhitelistStep, DEFAULT_POLICY, freshA, defaultState, recentCount]
  · norm_num [recordPayment, freshA, defaultState, keysA]

/-- C8 (amended): `checkPayment` and `recordPayment` perform no validation of
negative amounts: a negative amount flows through the ordinary limit checks
(and is allowed under the default policy on a fresh ledger, since it cannot
strictly exceed any limit) and `recordPayment` silently adds it to the
ledger totals; there is no error path. -/
theorem negative_amount_silently_processed (keys : DateKeys) (nowMs : ℤ)
    (a : ℚ) (r : String) (s : SpendingState) (ha : a < 0) :
    checkPayment DEFAULT_POLICY (defaultState keys) nowMs a r = ⟨true, none⟩
    ∧ (s.date = keys.date →
        (recordPayment keys nowMs a r s).dailySpent = s.dailySpent + a) := by
  constructor
  · have h1 : ¬a > DEFAULT_POLICY.maxPerTransaction := by
      simp only [DEFAULT_POLICY, not_lt]
      linarith
    have h2 : ¬(defaultState keys).dailySpent + a > DEFAULT_POLICY.dailyLimit := by
      simp only [DEFAULT_POLICY, defaultState, not_lt, zero_add]
      linarith
    unfold checkPayment
    rw [if_neg h1, if_neg h2]
    simp [checkWeeklyStep, checkMonthlyStep, checkVelocityStep,
      checkPerRecipientStep, checkBlacklistStep, checkWhitelistStep,
      DEFAULT_POLICY, recentCount, defaultState]
  · intro hd
    have h := (recordPayment_buckets keys nowMs a r s).1
    rwa [if_pos hd] at h

/-- C8 witness: the silent processing of amount −1 on the fresh ledger. -/
theorem negative_amount_silently_processed_witness :
    checkPayment DEFAULT_POLICY (defaultState keysA) 0 (-1) "0xzzz" = ⟨true, none⟩
    ∧ (recordPayment keysA 0 (-1) "0xzzz" freshA).dailySpent =
        freshA.dailySpent + (-1) :=
  ⟨(negative_amount_silently_processed keysA 0 (-1) "0xzzz" freshA (by norm_num)).1,
   (negative_amount_silently_processed keysA 0 (-1) "0xzzz" freshA (by norm_num)).2 rfl⟩

lemma isPrefixOf_take (l1 l2 : List Char) :
    l1.isPrefixOf l2 = true ↔ l2.take l1.length = l1 := by
  induction l1 generalizing l2 with
  | nil => simp [List.isPrefixOf]
  | cons a as ih =>
    cases l2 with
    | nil => simp [List.isPrefixOf]
    | cons b bs =>
      simp only [List.isPrefixOf, Bool.and_eq_true, beq_iff_eq, ih,
        List.length_cons, List.take_succ_cons, List.cons.injEq]
      exact ⟨fun ⟨h1, h2⟩ => ⟨h1.symm, h2⟩, fun ⟨h1, h2⟩ => ⟨h1.symm, h2⟩⟩

lemma updateReceipt_found {rs : List PaymentReceipt} {rid : String}
    {u : ReceiptUpdate} {r' : PaymentReceipt}
    (h : (updateReceipt rs rid u).2 = some r') :
    ∃ rr ∈ rs, rr.id = rid ∧ r' = mergeReceipt rr u := by
  induction rs with
  | nil => simp [updateReceipt] at h
  | cons r rest ih =>
    rw [updateReceipt] at h
    by_cases hid : (r.id == rid) = true
    · rw [if_pos hid] at h
      refine ⟨r, List.mem_cons_self _ _, by simpa [beq_iff_eq] using hid, ?_⟩
      exact (Option.some.inj h).symm
    · rw [if_neg hid] at h
      dsimp only at h
      obtain ⟨rr, hm, hidr, he⟩ := ih h
      exact ⟨rr, List.mem_cons_of_mem _ hm, hidr, he⟩

/-- C9 counterexample: `updateReceipt` enforces no terminality — a receipt
already in the terminal status `'success'` is moved back to `'pending'` by
an update keyed to its id. -/
theorem terminal_status_not_enforced :
    ((updateReceipt [rSuccess] "id1" ⟨some ReceiptStatus.pending, none, none⟩).2.map
      (fun r => r.status)) = some ReceiptStatus.pending
    ∧ rSuccess.status = ReceiptStatus.success := by
  constructor
  · simp [updateReceipt, mergeReceipt, rSuccess]
  · rfl

/-- C9 (amended): `createReceipt` always produces status `'pending'` (and
appends), `recordBlocked` always produces status `'blocked'` with the reason
recorded; but `updateReceipt` merges its update into the first receipt whose
id matches unconditionally — the merged status is the update's status
whenever one is supplied, regardless of the receipt's previous status
(`'blocked'`, `'success'` and `'failed'` included), so terminality holds only
for callers that never issue further updates. -/
theorem receipt_lifecycle (freshId ts url rid : String) (amount : ℚ)
    (amountRaw recipient network reason : String) (input : ReceiptInput)
    (rs : List PaymentReceipt) (r : PaymentReceipt) (u : ReceiptUpdate) :
    (createReceipt freshId ts input rs).2.status = ReceiptStatus.pending
    ∧ (createReceipt freshId ts input rs).1 =
        rs ++ [(createReceipt freshId ts input rs).2]
    ∧ (recordBlocked freshId ts url amount amountRaw recipient network reason
        rs).2.status = ReceiptStatus.blocked
    ∧ (recordBlocked freshId ts url amount amountRaw recipient network reason
        rs).2.blockReason = some reason
    ∧ (mergeReceipt r u).status = u.status.getD r.status
    ∧ (∀ r', (updateReceipt rs rid u).2 = some r' →
        ∃ rr ∈ rs, rr.id = rid ∧ r' = mergeReceipt rr u) :=
  ⟨rfl, rfl, rfl, rfl, rfl, fun _ h => updateReceipt_found h⟩

/-- C9 witness: the update characterization applied to the one-element store:
the receipt returned for id `"id1"` is the merge of `rSuccess` with the
update. -/
theorem receipt_lifecycle_witness :
    ∃ rr ∈ [rSuccess], rr.id = "id1"
      ∧ mergeReceipt rSuccess ⟨some ReceiptStatus.failed, none, none⟩ =
          mergeReceipt rr ⟨some ReceiptStatus.failed, none, none⟩ :=
  (receipt_lifecycle "x" "t" "u" "id1" 0 "rw" "rc" "nt" "rs"
      ⟨"u", 0, "0", "USDC", "base", "0x", none, none⟩ [rSuccess] rSuccess
      ⟨some ReceiptStatus.failed, none, none⟩).2.2.2.2.2
    (mergeReceipt rSuccess ⟨some ReceiptStatus.failed, none, none⟩)
    (by simp [updateReceipt, rSuccess])

/-- C10: `getTodayTotal` sums the amounts of exactly those receipts whose
timestamp starts with the current UTC day string and whose status is
`'success'`; appending a same-day receipt in any other status leaves the
total unchanged; and for a 10-character day key, "timestamp starts with the
day" says precisely that the timestamp's first 10 characters (the date part
of an ISO-8601 UTC timestamp) equal the day. -/
theorem getTodayTotal_sums_successful_today (today : String)
    (rs : List PaymentReceipt) :
    getTodayTotal today rs =
      ((rs.filter (fun r => r.status == ReceiptStatus.success
          && startsWithB r.timestamp today)).map (fun r => r.amount)).sum
    ∧ (∀ r : PaymentReceipt, r.status ≠ ReceiptStatus.success →
        getTodayTotal today (rs ++ [r]) = getTodayTotal today rs)
    ∧ (today.length = 10 → ∀ ts : String,
        (startsWithB ts today = true ↔ ts.data.take 10 = today.data)) := by
  refine ⟨?_, ?_, ?_⟩
  · unfold getTodayTotal getToday
    rw [List.filter_filter, List.sum_eq_foldl]
  · intro r hr
    have hstat : (r.status == ReceiptStatus.success) = false := by
      simpa [beq_iff_eq] using hr
    unfold getTodayTotal getToday
    rw [List.filter_filter, List.filter_filter, List.filter_append]
    simp [hstat]
  · intro hlen ts
    unfold startsWithB
    rw [isPrefixOf_take]
    have hd : today.data.length = 10 := hlen
    rw [hd]

/-- C10 witness: appending the same-day pending receipt does not change the
total of the store holding one successful receipt. -/
theorem getTodayTotal_sums_successful_today_witness :
    getTodayTotal "2026-10-11" ([rSuccess] ++ [rPending]) =
      getTodayTotal "2026-10-11" [rSuccess] :=
  (getTodayTotal_sums_successful_today "2026-10-11" [rSuccess]).2.1 rPending
    (by simp [rPending])

end X402
